import Mathlib

/-!
Verification of the negative-sample synthesis engine of the yine-rule-engine-psa
repository (src/yine_rules/negatives).  The Python source is shallowly embedded:
pure text manipulation becomes functions on character lists, the stateful
`random.Random` objects become explicit state passing of a deterministic
generator state, and exceptions become `Except` results.

The Python code draws from `random.Random`, a Mersenne-Twister generator.  The
claims under examination concern which stream is consumed, in which order, and
how its draws are used -- not the statistical distribution of the draws -- so
the model uses a small linear congruential generator with the same interface
(`randint`, `choice`, `random`).  Floating-point values (`ratio_target`,
`severity`, `injection_rate`, `random()`) are modelled as exact rationals.
-/

/-! ## Character and string helpers (Python `str` / `re` semantics) -/

/-- Python `str.lower` on one character, for the ASCII range plus the accented
Spanish letters used by the lexicons.  (Lean's `Char.toLower` only lowers
ASCII.) -/
def lowerChar (c : Char) : Char :=
  if c = 'Ñ' then 'ñ'
  else if c = 'Á' then 'á'
  else if c = 'É' then 'é'
  else if c = 'Í' then 'í'
  else if c = 'Ó' then 'ó'
  else if c = 'Ú' then 'ú'
  else if c = 'Ü' then 'ü'
  else c.toLower

/-- Python `str.lower`. -/
def pyLower (s : String) : String := ⟨s.data.map lowerChar⟩

/-- A regex `\w` word character (ASCII alphanumerics, underscore, and the
accented Spanish letters appearing in this corpus' repertoire). -/
def isWordChar (c : Char) : Bool :=
  c.isAlphanum || c = '_' ||
    c ∈ ['ñ', 'á', 'é', 'í', 'ó', 'ú', 'ü', 'Ñ', 'Á', 'É', 'Í', 'Ó', 'Ú', 'Ü']

/-- Accumulator pass splitting a character list into the maximal runs of
characters satisfying `p` (the matches of `p+` between boundaries). -/
def tokenizeAux (p : Char → Bool) : List Char → List Char → List (List Char)
  | [], acc => if acc.isEmpty then [] else [acc.reverse]
  | c :: rest, acc =>
    if p c then tokenizeAux p rest (c :: acc)
    else if acc.isEmpty then tokenizeAux p rest []
    else acc.reverse :: tokenizeAux p rest []

/-- Maximal runs of `p`-characters in `s`. -/
def tokenizeBy (p : Char → Bool) (s : List Char) : List (List Char) :=
  tokenizeAux p s []

/-- `re.findall(r"\b\w+\b", s)`: the maximal word-character runs. -/
def wtokens (s : String) : List (List Char) := tokenizeBy isWordChar s.data

/-- `re.findall(r"\b[...]+\b", s)` for a character class `cls` contained in
`\w`: exactly those maximal word runs all of whose characters lie in `cls`
(a narrower run cannot be delimited by `\b` inside a word run). -/
def classTokens (cls : Char → Bool) (s : String) : List (List Char) :=
  (tokenizeBy isWordChar s.data).filter (fun t => t.all cls)

/-- `re.search(rf"\b{re.escape(w)}\b", text)` for a needle `w` made of word
characters: `w` occurs as a maximal word run of `text`. -/
def word_in (w : String) (text : String) : Bool :=
  (wtokens text).contains w.data

/-- Python `str.replace(old, new, 1)`: replace the leftmost substring
occurrence of `old` (an empty `old` matches at position 0). -/
def replaceFirst (old new : List Char) : List Char → List Char
  | [] => if old.isPrefixOf ([] : List Char) then new else []
  | c :: rest =>
    if old.isPrefixOf (c :: rest) then new ++ (c :: rest).drop old.length
    else c :: replaceFirst old new rest

/-- Python whitespace for `\s` and `str.strip` (ASCII portion). -/
def isWS (c : Char) : Bool := c.isWhitespace

/-- Python `str.strip()`. -/
def pyStrip (s : List Char) : List Char :=
  ((s.dropWhile isWS).reverse.dropWhile isWS).reverse

/-- Python slice `t[:-n]`.  Note the `-0` quirk: `t[:-0]` is `t[:0] = ""`,
not the whole string. -/
def pyNegSlice (t : List Char) (n : Nat) : List Char :=
  if n = 0 then [] else t.take (t.length - n)

/-- First `some` produced by `f` along the list (Python loops that `return`
on the first hit). -/
def firstSome (f : α → Option β) : List α → Option β
  | [] => none
  | a :: l =>
    match f a with
    | some b => some b
    | none => firstSome f l

/-! ## The RNG model

`random.Random(seed)` is modelled as a congruential generator state.  The
engine owns one such state; every generator object also constructs its own
(`self.rng = random.Random(seed)`), which is part of the run state because
`generate` advances it. -/

/-- Modulus of the model generator. -/
def rngMod : Nat := 2147483648

/-- State of one `random.Random` object. -/
structure Rng where
  state : Nat
deriving DecidableEq, Repr

/-- One raw draw. -/
def rngNext (r : Rng) : Nat × Rng :=
  let n := (r.state * 1103515245 + 12345) % rngMod
  (n, ⟨n⟩)

/-- `random.Random(seed)`. -/
def Rng.ofSeed (s : Nat) : Rng := ⟨s % rngMod⟩

/-- `rng.randint(a, b)` (inclusive bounds; the engine is configured with
`k_min ≤ k_max`, where this returns a value in `[a, b]`). -/
def pyRandint (r : Rng) (a b : Nat) : Nat × Rng :=
  let (n, r') := rngNext r
  (a + n % (b + 1 - a), r')

/-- `rng.choice(xs)`: `none` models the `IndexError` on an empty sequence. -/
def pyChoice (r : Rng) (xs : List α) : Option α × Rng :=
  let (n, r') := rngNext r
  (xs.get? (n % xs.length), r')

/-- `rng.random()`: a rational in `[0, 1)` (built with `mkRat`, which the
kernel can evaluate). -/
def pyRandom (r : Rng) : ℚ × Rng :=
  let (n, r') := rngNext r
  (mkRat n rngMod, r')

/-! ## Data model (types.py, splits) -/

/-- A value stored in a sample's `metadata` dict. -/
inductive MetaValue where
  | str (s : String)
  | num (q : ℚ)
  | strList (l : List String)
deriving DecidableEq, Repr

/-- The open key-value `metadata` record. -/
abbrev Metadata := List (String × MetaValue)

/-- `NegativeSample` dataclass (types.py). -/
structure NegativeSample where
  pair_id : String
  source_text : String
  target_text : String
  negative_text : String
  rule_id : String
  violation_type : String
  severity : ℚ
  metadata : Metadata
  split : String
deriving DecidableEq, Repr

/-- One row of the positive-pair table consumed by the engine. -/
structure Positive where
  pair_id : String
  source_text : String
  target_text : String
deriving DecidableEq, Repr

/-- The split JSON: three id lists. -/
structure Split where
  train_ids : List String
  dev_ids : List String
  test_ids : List String
deriving DecidableEq, Repr

/-- `build_split_index` fills a dict from the train, then dev, then test
lists, so a `pair_id` in several lists ends with the last assignment; lookup
is modelled with that precedence.  Absence means the positive is
unassigned. -/
def build_split_index (sp : Split) (pid : String) : Option String :=
  if pid ∈ sp.test_ids then some "test"
  else if pid ∈ sp.dev_ids then some "dev"
  else if pid ∈ sp.train_ids then some "train"
  else none

/-! ## R4 - PSSD omission (r4_pssd_omission.py)

The constructor lowercases the Spanish possessive forms and loads prefix and
suffix lists; `R4Config` holds those loaded lexicons.  The object also owns a
`random.Random`, but `generate` never draws from it, so no state is carried. -/

structure R4Config where
  posesivos : List String
  prefixes : List String
  pssd : List String
  severity : ℚ
deriving DecidableEq, Repr

/-- Trigger: some Spanish possessive occurs (word-bounded) in the lowered
source text. -/
def r4_triggered (cfg : R4Config) (source_text : String) : Bool :=
  cfg.posesivos.any (fun p => word_in p (pyLower source_text))

/-- The nested prefix/suffix loops for one token: first prefix in list order
that is a prefix of the token, then first suffix in list order that is a
suffix and leaves a stripped form (`token[:-len(suf)]`) of length at least 3
(`continue` skips shorter ones).  Returns `(root, pref, suf)`. -/
def r4_token_site (cfg : R4Config) (tok : List Char) :
    Option (List Char × List Char × List Char) :=
  firstSome (fun pref =>
    if pref.data.isPrefixOf tok then
      firstSome (fun suf =>
        if suf.data.isSuffixOf tok then
          if 3 ≤ (pyNegSlice tok suf.data.length).length then
            some (pyNegSlice tok suf.data.length, pref.data, suf.data)
          else none
        else none) cfg.pssd
    else none) cfg.prefixes

/-- The sample R4 builds; `negative_text` is
`target_text.replace(token, root, 1)`. -/
def mkR4Sample (cfg : R4Config) (pid src tgt sp : String)
    (tok root pref suf : List Char) : NegativeSample :=
  { pair_id := pid, source_text := src, target_text := tgt,
    negative_text := ⟨replaceFirst tok root tgt.data⟩,
    rule_id := "R4", violation_type := "morphological", severity := cfg.severity,
    metadata := [("mutation", .str "pssd_omission"),
                 ("removed_suffix", .str ⟨suf⟩),
                 ("prefix", .str ⟨pref⟩),
                 ("original_token", .str ⟨tok⟩)],
    split := sp }

/-- `R4PSSDOmission.generate`: trigger check, then left-to-right scan of the
`\b\w+\b` tokens of the target, returning on the first token with a
qualifying site ("one mutation per sentence"). -/
def r4_generate (cfg : R4Config) (pid src tgt sp : String) : List NegativeSample :=
  if r4_triggered cfg src then
    match firstSome
        (fun tok => (r4_token_site cfg tok).map (fun s => (tok, s))) (wtokens tgt) with
    | some (tok, root, pref, suf) => [mkR4Sample cfg pid src tgt sp tok root pref suf]
    | none => []
  else []

/-! ## R6 - determiner swap (r6_np_det_swap.py) -/

structure R6Config where
  yine_dets : List String
  spanish_articles : List String
  severity : ℚ
deriving DecidableEq, Repr

/-- The `[a-zñ]` class of R6's token regex (applied to the lowered target). -/
def isR6Char (c : Char) : Bool := ('a' ≤ c && c ≤ 'z') || c = 'ñ'

/-- Precondition: the Spanish side contains an article. -/
def r6_has_article (cfg : R6Config) (text : String) : Bool :=
  cfg.spanish_articles.any (fun a => word_in a (pyLower text))

/-- Case-insensitive literal match of the lowercase pattern `pat` at the head
of `s`; returns the consumed original characters and the remainder. -/
def matchCI : List Char → List Char → Option (List Char × List Char)
  | [], s => some ([], s)
  | _ :: _, [] => none
  | p :: ps, c :: cs =>
    if lowerChar c = p then (matchCI ps cs).map (fun r => (c :: r.1, r.2)) else none

/-- Try the regex `{t0}\s+{t1}\b` at the head of `s` (the leading `\b` is
checked by the caller).  On success returns the swap replacement
`"parts[1] parts[0]"` built from the original slices, and the rest of the
text. -/
def r6_match_here (t0 t1 : List Char) (s : List Char) :
    Option (List Char × List Char) :=
  match matchCI t0 s with
  | none => none
  | some (orig0, s1) =>
    let ws := s1.takeWhile isWS
    if ws.isEmpty then none
    else
      match matchCI t1 (s1.drop ws.length) with
      | none => none
      | some (orig1, s2) =>
        match s2 with
        | [] => some (orig1 ++ ' ' :: orig0, [])
        | d :: _ => if isWordChar d then none else some (orig1 ++ ' ' :: orig0, s2)

/-- `pattern.sub(swap, target_text, count=1)` scan: leftmost position with a
word boundary where the pattern matches; `none` when the pattern matches
nowhere. -/
def r6_sub_aux (t0 t1 : List Char) : Bool → List Char → Option (List Char)
  | _, [] => none
  | prevW, c :: rest =>
    match (if prevW then none else r6_match_here t0 t1 (c :: rest)) with
    | some (rep, after) => some (rep ++ after)
    | none => (r6_sub_aux t0 t1 (isWordChar c) rest).map (fun r => c :: r)

/-- `re.sub` with `count=1` returns the text unchanged when nothing
matches. -/
def r6_sub (t0 t1 : List Char) (tgt : String) : String :=
  ⟨(r6_sub_aux t0 t1 false tgt.data).getD tgt.data⟩

/-- The sample R6 emits for the adjacent token pair `(t0, t1)`. -/
def mkR6Sample (cfg : R6Config) (pid src tgt sp : String)
    (t0 t1 : List Char) : NegativeSample :=
  { pair_id := pid, source_text := src, target_text := tgt,
    negative_text := r6_sub t0 t1 tgt,
    rule_id := "R6", violation_type := "syntactic", severity := cfg.severity,
    metadata := [("mutation", .str "np_det_swap"),
                 ("original_order", .str ⟨t0 ++ ' ' :: t1⟩),
                 ("swapped_order", .str ⟨t1 ++ ' ' :: t0⟩)],
    split := sp }

/-- The `for i in range(len(tokens) - 1)` loop: first adjacent pair whose
first token is a Yine determiner and whose second token has length >= 3.
Note the emitted sample is not compared against the target text. -/
def r6_scan (cfg : R6Config) (pid src tgt sp : String) :
    List (List Char) → List NegativeSample
  | t0 :: t1 :: rest =>
    if cfg.yine_dets.contains ⟨t0⟩ ∧ 3 ≤ t1.length then
      [mkR6Sample cfg pid src tgt sp t0 t1]
    else r6_scan cfg pid src tgt sp (t1 :: rest)
  | _ => []

/-- `R6DeterminantSwap.generate`. -/
def r6_generate (cfg : R6Config) (pid src tgt sp : String) : List NegativeSample :=
  if r6_has_article cfg src then
    r6_scan cfg pid src tgt sp (classTokens isR6Char (pyLower tgt))
  else []

/-! ## R7 - gender agreement flip (r7_gender_agreement_flip.py) -/

/-- Enabled masc/fem suffix pairs, lowered, in YAML order.  (Python keeps
`enabled_suffixes` in a set; iteration order is modelled as insertion
order, which is what CPython gives for these short strings in practice and
is irrelevant when at most one suffix matches a token.) -/
structure R7Config where
  adjectives : List String
  pairs : List (String × String)
  severity : ℚ
deriving DecidableEq, Repr

def STOPWORDS_YINE : List String :=
  ["wa", "ga", "gi", "wane", "wale", "satu", "sato", "pa"]

def VERBAL_SUFFIXES : List String := ["ta", "na", "kalu", "luwa", "tka"]

/-- `looks_like_noun`. -/
def looks_like_noun (tok : List Char) : Bool :=
  !STOPWORDS_YINE.contains ⟨tok⟩ && decide (3 ≤ tok.length) &&
    !VERBAL_SUFFIXES.any (fun s => s.data.isSuffixOf tok)

/-- The `[a-zñáéíóúü]` class with `re.IGNORECASE`. -/
def isR7Char (c : Char) : Bool :=
  let l := lowerChar c
  ('a' ≤ l && l ≤ 'z') || l ∈ ['ñ', 'á', 'é', 'í', 'ó', 'ú', 'ü']

/-- Maximal word runs together with their start offsets. -/
def wordRunsPosAux : Nat → Nat → List Char → List Char → List (Nat × List Char)
  | _, start, cur, [] => if cur.isEmpty then [] else [(start, cur.reverse)]
  | i, start, cur, c :: rest =>
    if isWordChar c then
      if cur.isEmpty then wordRunsPosAux (i + 1) i [c] rest
      else wordRunsPosAux (i + 1) start (c :: cur) rest
    else if cur.isEmpty then wordRunsPosAux (i + 1) start [] rest
    else (start, cur.reverse) :: wordRunsPosAux (i + 1) 0 [] rest

def wordRunsPos (s : List Char) : List (Nat × List Char) := wordRunsPosAux 0 0 [] s

/-- `re.finditer(r"\b[a-zñáéíóúü]+\b", text, re.IGNORECASE)` with spans:
the maximal word runs made only of class characters. -/
def r7_tokens (tgt : String) : List (Nat × List Char) :=
  (wordRunsPos tgt.data).filter (fun t => t.2.all isR7Char)

/-- Replace the span `[start, start+len)` of `text`. -/
def spliceAt (text : List Char) (start len : Nat) (new : List Char) : List Char :=
  text.take start ++ new ++ text.drop (start + len)

def r7_suffixes (cfg : R7Config) : List (List Char) :=
  cfg.pairs.flatMap (fun p => [p.1.data, p.2.data])

/-- `flip_map` lookup; built by dict insertion per pair, so a duplicated
suffix key keeps the last pair's mapping. -/
def r7_flip (cfg : R7Config) (suf : List Char) : List Char :=
  (firstSome (fun p =>
      if p.1.data = suf then some p.2.data
      else if p.2.data = suf then some p.1.data
      else none) cfg.pairs.reverse).getD []

def upperChar (c : Char) : Char :=
  if c = 'ñ' then 'Ñ'
  else if c = 'á' then 'Á'
  else if c = 'é' then 'É'
  else if c = 'í' then 'Í'
  else if c = 'ó' then 'Ó'
  else if c = 'ú' then 'Ú'
  else if c = 'ü' then 'Ü'
  else c.toUpper

def mkR7Sample (cfg : R7Config) (pid src tgt sp : String)
    (origTok flipped suf : List Char) (negative : String) : NegativeSample :=
  { pair_id := pid, source_text := src, target_text := tgt,
    negative_text := negative,
    rule_id := "R7", violation_type := "morphological", severity := cfg.severity,
    metadata := [("mutation", .str "gender_agreement_flip"),
                 ("original_token", .str ⟨origTok⟩),
                 ("flipped_token", .str ⟨flipped⟩),
                 ("suffix_changed", .str ⟨suf⟩)],
    split := sp }

/-- The body of R7's loop at token index `i`: `none` means `continue`,
`some res` means `return res` (the safety check returns `[]` when the
reconstruction equals the target). -/
def r7_try (cfg : R7Config) (pid src tgt sp : String)
    (toks : List (Nat × List Char)) (lows : List (List Char)) (i : Nat) :
    Option (List NegativeSample) :=
  match lows.get? i with
  | none => none
  | some tokLower =>
    if cfg.adjectives.contains ⟨tokLower⟩ then
      match firstSome (fun suf =>
          if suf.isSuffixOf tokLower ∧ suf.length + 1 < tokLower.length then some suf
          else none) (r7_suffixes cfg) with
      | none => none
      | some suf =>
        let left := if i = 0 then none else lows.get? (i - 1)
        let right := lows.get? (i + 1)
        let in_np :=
          (match right with | some r => looks_like_noun r | none => false) ||
          (match left with | some l => looks_like_noun l | none => false)
        if in_np then
          match toks.get? i with
          | none => none
          | some (start, origTok) =>
            let flippedLower := pyNegSlice tokLower suf.length ++ r7_flip cfg suf
            let flipped :=
              if (match origTok.head? with | some o => o.isUpper | none => false) then
                match flippedLower with
                | [] => []
                | f :: fs => upperChar f :: fs.map lowerChar
              else flippedLower
            let negative : String := ⟨spliceAt tgt.data start origTok.length flipped⟩
            if negative = tgt then some []
            else some [mkR7Sample cfg pid src tgt sp origTok flipped suf negative]
        else none
    else none

def r7_scan (cfg : R7Config) (pid src tgt sp : String)
    (toks : List (Nat × List Char)) (lows : List (List Char)) :
    List Nat → List NegativeSample
  | [] => []
  | i :: rest =>
    match r7_try cfg pid src tgt sp toks lows i with
    | some res => res
    | none => r7_scan cfg pid src tgt sp toks lows rest

/-- `R7GenderAgreementFlip.generate`. -/
def r7_generate (cfg : R7Config) (pid src tgt sp : String) : List NegativeSample :=
  let toks := r7_tokens tgt
  if toks.isEmpty then []
  else
    r7_scan cfg pid src tgt sp toks (toks.map (fun t => t.2.map lowerChar))
      (List.range toks.length)

/-! ## R8 - Spanish determiner injection (r8_spanish_determiner.py) -/

/-- Loaded determiner list (sorted, deduplicated, lowered by the loader);
the constructor raises `ValueError` when it is empty, so a well-formed
`R8Config` has a nonempty list. -/
structure R8Config where
  determiners : List String
  severity : ℚ
  injection_rate : ℚ
deriving DecidableEq, Repr

def contains_spanish_determiner (dets : List String) (text : String) : Bool :=
  dets.any (fun d => word_in d (pyLower text))

/-- The sample R8 emits; `negative_text = f"{det} {target_text}".strip()`. -/
def mkR8Sample (cfg : R8Config) (d : String) (pid src tgt sp : String) :
    NegativeSample :=
  { pair_id := pid, source_text := src, target_text := tgt,
    negative_text := ⟨pyStrip (d.data ++ ' ' :: tgt.data)⟩,
    rule_id := "R8", violation_type := "lexical", severity := cfg.severity,
    metadata := [("mutation", .str "prefix_injection"),
                 ("inserted_token", .str d),
                 ("categories", .strList cfg.determiners),
                 ("injection_rate", .num cfg.injection_rate)],
    split := sp }

/-- `R8SpanishDeterminerInjection.generate`: one draw from the object's own
RNG decides emission (`random() > injection_rate` rejects); the double
injection guard consumes no draw; the determiner choice is a second draw
from the same object RNG.  The `(none, _)` branch of `choice` is unreachable
because the constructor rejects an empty determiner list. -/
def r8_generate (cfg : R8Config) (rng : Rng) (pid src tgt sp : String) :
    List NegativeSample × Rng :=
  if cfg.injection_rate < (pyRandom rng).1 then ([], (pyRandom rng).2)
  else if contains_spanish_determiner cfg.determiners tgt then ([], (pyRandom rng).2)
  else
    match pyChoice (pyRandom rng).2 cfg.determiners with
    | (none, rng2) => ([], rng2)
    | (some d, rng2) => ([mkR8Sample cfg d pid src tgt sp], rng2)

/-! ## Generator contract and registry (base_generator.py, registry.py) -/

/-- One registered generator object.  R4, R6 and R7 construct a
`random.Random` too but never draw from it inside `generate`, so only R8
carries RNG state. -/
inductive Generator where
  | r4 (cfg : R4Config)
  | r6 (cfg : R6Config)
  | r7 (cfg : R7Config)
  | r8 (cfg : R8Config) (rng : Rng)
deriving DecidableEq, Repr

/-- `generate(pair_id, source_text, target_text, split)`; the returned
generator carries the advanced object state (identity for the
deterministic rules). -/
def Generator.generate :
    Generator → String → String → String → String → List NegativeSample × Generator
  | .r4 c, pid, src, tgt, sp => (r4_generate c pid src tgt sp, .r4 c)
  | .r6 c, pid, src, tgt, sp => (r6_generate c pid src tgt sp, .r6 c)
  | .r7 c, pid, src, tgt, sp => (r7_generate c pid src tgt sp, .r7 c)
  | .r8 c rng, pid, src, tgt, sp =>
    let res := r8_generate c rng pid src tgt sp
    (res.1, .r8 c res.2)

/-- The run-scoped registry: `rule_id -> generator`, unique keys.  `get`
raises `KeyError` for an absent id, modelled by `List.lookup` returning
`none`. -/
abbrev Registry := List (String × Generator)

/-- In-place mutation of the registered object (the Python object in the
dict advances its own state). -/
def regSet (reg : Registry) (rid : String) (g : Generator) : Registry :=
  reg.map (fun e => if e.1 = rid then (rid, g) else e)

/-! ## Exporter (reporting.py)

`export_negatives` builds a pandas DataFrame from `asdict` of each sample
(or an explicitly-schemed empty frame), writes it out, and returns the
global stats dict.  File writes are outside the model; the returned table
and stats are modelled. -/

/-- A cell of the exported table. -/
inductive CellValue where
  | str (s : String)
  | num (q : ℚ)
  | meta (m : Metadata)
deriving DecidableEq, Repr

/-- `dataclasses.asdict`: field name/value pairs in declaration order. -/
def asdict (s : NegativeSample) : List (String × CellValue) :=
  [("pair_id", .str s.pair_id),
   ("source_text", .str s.source_text),
   ("target_text", .str s.target_text),
   ("negative_text", .str s.negative_text),
   ("rule_id", .str s.rule_id),
   ("violation_type", .str s.violation_type),
   ("severity", .num s.severity),
   ("metadata", .meta s.metadata),
   ("split", .str s.split)]

/-- The nine-column schema reporting.py declares for an empty export. -/
def negColumnsLit : List String :=
  ["pair_id", "source_text", "target_text", "negative_text", "rule_id",
   "violation_type", "severity", "metadata", "split"]

/-- `pd.DataFrame(records)` column inference: union of the record keys in
first-appearance order. -/
def dfInsertKeys (acc : List String) (rec : List (String × CellValue)) :
    List String :=
  rec.foldl (fun a kv => if kv.1 ∈ a then a else a ++ [kv.1]) acc

/-- A DataFrame: ordered columns plus the row records. -/
structure DataFrame where
  columns : List String
  records : List (List (String × CellValue))
deriving DecidableEq, Repr

def dfColumns (records : List (List (String × CellValue))) : List String :=
  records.foldl dfInsertKeys []

def dataFrameOfRecords (records : List (List (String × CellValue))) : DataFrame :=
  { columns := dfColumns records, records := records }

/-- `collections.Counter` over a key, in first-appearance order. -/
def countBy (key : NegativeSample → String) (l : List NegativeSample) :
    List (String × Nat) :=
  l.foldl (fun acc s =>
    if acc.any (fun e => e.1 = key s) then
      acc.map (fun e => if e.1 = key s then (e.1, e.2 + 1) else e)
    else acc ++ [(key s, 1)]) []

/-- The global stats dict written to `stats.json` and returned. -/
structure ExportStats where
  rows : Nat
  by_rule : List (String × Nat)
  by_split : List (String × Nat)
  columns : List String
deriving DecidableEq, Repr

structure ExportResult where
  df : DataFrame
  stats : ExportStats
deriving DecidableEq, Repr

/-- `export_negatives(samples, out_dir)`: empty input gets the fixed
nine-column empty frame, otherwise the frame of the `asdict` records. -/
def export_negatives (samples : List NegativeSample) : ExportResult :=
  let df :=
    if samples.isEmpty then { columns := negColumnsLit, records := [] }
    else dataFrameOfRecords (samples.map asdict)
  { df := df,
    stats := { rows := df.records.length,
               by_rule := countBy (fun s => s.rule_id) samples,
               by_split := countBy (fun s => s.split) samples,
               columns := df.columns } }

/-! ## The sampling controller (engine.py) -/

/-- `NegativesConfig` (paths are consumed outside the model; the engine sees
the loaded positive table and split). -/
structure NegativesConfig where
  rules_enabled : List String
  k_min : Nat
  k_max : Nat
  ratio_target : ℚ
  seed : Nat
deriving DecidableEq, Repr

/-- `max_negatives_allowed = int(n_positive * cfg.ratio_target)`: Python
`int()` truncates toward zero, and the exact value of `ratio * n` is
`(ratio.num * n) / ratio.den`, so the truncation is `Int.tdiv` of those
components (for a nonnegative ratio this is the floor).  The result is the
`Nat` bound of the `len(all_samples) >= cap` comparisons; a negative cap
makes every comparison succeed at once, exactly like cap 0. -/
def max_negatives_allowed (ratio : ℚ) (n : Nat) : Nat :=
  ((ratio.num * n).tdiv ratio.den).toNat

/-- Round-half-to-even of the exact rational `a / b` (`b` positive), the
rounding Python's `round` uses: `f` is the floor, and twice the remainder
is compared against the denominator to classify the half. -/
def roundHalfEvenInt (a : Int) (b : Nat) : Int :=
  let f := Int.fdiv a b
  let rem2 := 2 * (a - f * b)
  if rem2 < (b : Int) then f
  else if (b : Int) < rem2 then f + 1
  else if f % 2 = 0 then f else f + 1

/-- `round(a / b, 4)` on the exact rational value. -/
def round4Frac (a : Int) (b : Nat) : ℚ :=
  mkRat (roundHalfEvenInt (a * 10000) b) 10000

/-- The manifest.json record. -/
structure Manifest where
  positive_rows : Nat
  negative_rows : Nat
  ratio_actual : ℚ
  k_min : Nat
  k_max : Nat
  ratio_target : ℚ
  rules : List String
deriving DecidableEq, Repr

/-- Everything a completed run leaves behind: the accumulated samples in
generation order, the export artifacts, and the manifest.  A failed run
produces none of these (`Except.error`). -/
structure RunResult where
  samples : List NegativeSample
  exported : ExportResult
  manifest : Manifest
deriving DecidableEq, Repr

inductive EngineError where
  | ruleNotRegistered (rid : String)
  | emptyRuleChoice
  | zeroPositives
deriving DecidableEq, Repr

/-- Mutable state of the sampling loops: the engine RNG, the registry (whose
objects carry their own RNG states), and `all_samples`. -/
structure EngineState where
  rng : Rng
  registry : Registry
  samples : List NegativeSample
deriving DecidableEq, Repr

/-- The `for s in samples: if len(all_samples) >= cap: break; append` inner
loop: append a prefix of the new samples up to the cap. -/
def appendCapped (cap : Nat) (samples new : List NegativeSample) :
    List NegativeSample :=
  samples ++ new.take (cap - samples.length)

/-- The `for _ in range(k)` attempt loop: cap check, uniform rule choice
from the enabled list, registry lookup (`KeyError` when absent is fatal),
invoke the generator, accumulate capped. -/
def runAttempts (cfg : NegativesConfig) (cap : Nat) (p : Positive)
    (lbl : String) : Nat → EngineState → Except EngineError EngineState
  | 0, st => .ok st
  | k + 1, st =>
    if cap ≤ st.samples.length then .ok st
    else
      match pyChoice st.rng cfg.rules_enabled with
      | (none, _) => .error .emptyRuleChoice
      | (some rid, rng') =>
        match st.registry.lookup rid with
        | none => .error (.ruleNotRegistered rid)
        | some gen =>
          let res := gen.generate p.pair_id p.source_text p.target_text lbl
          runAttempts cfg cap p lbl k
            { rng := rng', registry := regSet st.registry rid res.2,
              samples := appendCapped cap st.samples res.1 }

/-- The body of one positive-loop iteration (after the `break` check):
split resolution -- `continue` when unassigned, touching neither the RNG
nor the samples -- then the `k = rng.randint(k_min, k_max)` draw and the
attempt loop. -/
def stepPositive (cfg : NegativesConfig) (cap : Nat) (sp : Split)
    (p : Positive) (st : EngineState) : Except EngineError EngineState :=
  match build_split_index sp p.pair_id with
  | none => .ok st
  | some lbl =>
    runAttempts cfg cap p lbl (pyRandint st.rng cfg.k_min cfg.k_max).1
      { st with rng := (pyRandint st.rng cfg.k_min cfg.k_max).2 }

/-- The per-positive loop: cap check (`break`), then one `stepPositive` per
row in table order. -/
def runPositives (cfg : NegativesConfig) (cap : Nat) (sp : Split) :
    List Positive → EngineState → Except EngineError EngineState
  | [], st => .ok st
  | p :: rest, st =>
    if cap ≤ st.samples.length then .ok st
    else
      match stepPositive cfg cap sp p st with
      | .error e => .error e
      | .ok st' => runPositives cfg cap sp rest st'

/-- `generate_negatives(cfg)`: seed the engine RNG, run the loops, export,
then write the manifest.  A raised exception aborts with no artifacts; the
`ratio_actual` division raises `ZeroDivisionError` when the positive table
is empty (after the export wrote an empty table, but before any
manifest). -/
def generate_negatives (cfg : NegativesConfig) (positives : List Positive)
    (sp : Split) (reg : Registry) : Except EngineError RunResult :=
  match runPositives cfg (max_negatives_allowed cfg.ratio_target positives.length)
      sp positives
      { rng := Rng.ofSeed cfg.seed, registry := reg, samples := [] } with
  | .error e => .error e
  | .ok st =>
    if positives.length = 0 then .error .zeroPositives
    else
      let ex := export_negatives st.samples
      .ok { samples := st.samples, exported := ex,
            manifest :=
              { positive_rows := positives.length,
                negative_rows := ex.stats.rows,
                ratio_actual := round4Frac ex.stats.rows positives.length,
                k_min := cfg.k_min, k_max := cfg.k_max,
                ratio_target := cfg.ratio_target,
                rules := cfg.rules_enabled } }

/-! ## Spec-side comparison models

`generate_negatives_single_stream` renders the specification's wording that
all randomness in a run flows through ONE RNG sequence seeded once from the
configured seed, consumed as: per-positive attempt count, then per-attempt
rule choice, then any rule-internal probabilistic decision.  It differs from
`generate_negatives` only in feeding the engine stream to the rule-internal
decision instead of the generator object's own stream. -/

/-- A `generate` call that takes its probabilistic decisions from the
engine stream handed to it (spec wording), leaving the object's own RNG
untouched. -/
def Generator.generateSingleStream :
    Generator → Rng → String → String → String → String →
    List NegativeSample × Generator × Rng
  | .r4 c, rng, pid, src, tgt, sp => (r4_generate c pid src tgt sp, .r4 c, rng)
  | .r6 c, rng, pid, src, tgt, sp => (r6_generate c pid src tgt sp, .r6 c, rng)
  | .r7 c, rng, pid, src, tgt, sp => (r7_generate c pid src tgt sp, .r7 c, rng)
  | .r8 c orig, rng, pid, src, tgt, sp =>
    let res := r8_generate c rng pid src tgt sp
    (res.1, .r8 c orig, res.2)

/-- Attempt loop of the single-stream rendering. -/
def runAttemptsSS (cfg : NegativesConfig) (cap : Nat) (p : Positive)
    (lbl : String) : Nat → EngineState → Except EngineError EngineState
  | 0, st => .ok st
  | k + 1, st =>
    if cap ≤ st.samples.length then .ok st
    else
      match pyChoice st.rng cfg.rules_enabled with
      | (none, _) => .error .emptyRuleChoice
      | (some rid, rng') =>
        match st.registry.lookup rid with
        | none => .error (.ruleNotRegistered rid)
        | some gen =>
          let res := gen.generateSingleStream rng' p.pair_id p.source_text
            p.target_text lbl
          runAttemptsSS cfg cap p lbl k
            { rng := res.2.2, registry := regSet st.registry rid res.2.1,
              samples := appendCapped cap st.samples res.1 }

/-- Per-positive step of the single-stream rendering. -/
def stepPositiveSS (cfg : NegativesConfig) (cap : Nat) (sp : Split)
    (p : Positive) (st : EngineState) : Except EngineError EngineState :=
  match build_split_index sp p.pair_id with
  | none => .ok st
  | some lbl =>
    runAttemptsSS cfg cap p lbl (pyRandint st.rng cfg.k_min cfg.k_max).1
      { st with rng := (pyRandint st.rng cfg.k_min cfg.k_max).2 }

/-- Positive loop of the single-stream rendering. -/
def runPositivesSS (cfg : NegativesConfig) (cap : Nat) (sp : Split) :
    List Positive → EngineState → Except EngineError EngineState
  | [], st => .ok st
  | p :: rest, st =>
    if cap ≤ st.samples.length then .ok st
    else
      match stepPositiveSS cfg cap sp p st with
      | .error e => .error e
      | .ok st' => runPositivesSS cfg cap sp rest st'

/-- Modelled from the spec: the engine with every probabilistic decision of
a rule drawn from the single engine stream, in the documented order. -/
def generate_negatives_single_stream (cfg : NegativesConfig)
    (positives : List Positive) (sp : Split) (reg : Registry) :
    Except EngineError RunResult :=
  match runPositivesSS cfg (max_negatives_allowed cfg.ratio_target positives.length)
      sp positives
      { rng := Rng.ofSeed cfg.seed, registry := reg, samples := [] } with
  | .error e => .error e
  | .ok st =>
    if positives.length = 0 then .error .zeroPositives
    else
      let ex := export_negatives st.samples
      .ok { samples := st.samples, exported := ex,
            manifest :=
              { positive_rows := positives.length,
                negative_rows := ex.stats.rows,
                ratio_actual := round4Frac ex.stats.rows positives.length,
                k_min := cfg.k_min, k_max := cfg.k_max,
                ratio_target := cfg.ratio_target,
                rules := cfg.rules_enabled } }

/-- Modelled from the spec wording of Scenario D: replace the first
occurrence of `tok` AS A TOKEN (a maximal word run, i.e. word-bounded on
both sides) by `rep`; to be compared against the `str.replace(tok, rep, 1)`
the code performs, which replaces the first SUBSTRING occurrence. -/
def replaceFirstWordToken (tok rep : List Char) : Bool → List Char → List Char
  | _, [] => []
  | prevW, c :: rest =>
    if (!prevW && tok.isPrefixOf (c :: rest) &&
        (match (c :: rest).drop tok.length with
         | [] => true
         | d :: _ => !isWordChar d)) then
      rep ++ (c :: rest).drop tok.length
    else c :: replaceFirstWordToken tok rep (isWordChar c) rest

/-! ## Concrete run configurations used by the theorems below -/

deriving instance DecidableEq for Except

/-- R8 with a single determiner and injection rate 1/2, as the loader would
build it. -/
def c1r8cfg : R8Config :=
  { determiners := ["el"], severity := mkRat 3 5, injection_rate := mkRat 1 2 }

def c1cfg : NegativesConfig :=
  { rules_enabled := ["R8"], k_min := 1, k_max := 1, ratio_target := mkRat 1 1,
    seed := 0 }

def c1ps : List Positive := [{ pair_id := "p1", source_text := "x", target_text := "foo" }]

def c1sp : Split := { train_ids := ["p1"], dev_ids := [], test_ids := [] }

/-- Registry holding the R8 object with its constructor-default seed 42. -/
def c1reg : Registry := [("R8", .r8 c1r8cfg (Rng.ofSeed 42))]

/-- A small run for the ratio-bound witness: one triggering positive. -/
def c2r4cfg : R4Config :=
  { posesivos := ["mi"], prefixes := ["no"], pssd := ["ne"], severity := mkRat 9 10 }

def c2cfg : NegativesConfig :=
  { rules_enabled := ["R4"], k_min := 1, k_max := 1, ratio_target := mkRat 1 1,
    seed := 0 }

def c2ps : List Positive :=
  [{ pair_id := "p1", source_text := "mi casa", target_text := "nokane wa" }]

def c2sp : Split := { train_ids := ["p1"], dev_ids := [], test_ids := [] }

def c2reg : Registry := [("R4", .r4 c2r4cfg)]

/-- Fallback record for reading an `Except.ok` payload in closed
statements. -/
def emptyRunResult : RunResult :=
  { samples := [], exported := export_negatives [],
    manifest := { positive_rows := 0, negative_rows := 0, ratio_actual := mkRat 0 1,
                  k_min := 0, k_max := 0, ratio_target := mkRat 0 1, rules := [] } }

def c2out : RunResult :=
  (generate_negatives c2cfg c2ps c2sp c2reg).toOption.getD emptyRunResult

/-- R6 lexicons: `satu` as Yine determiner, `la` as Spanish article. -/
def c3cfg : R6Config :=
  { yine_dets := ["satu"], spanish_articles := ["la"], severity := mkRat 4 5 }

def c4cfg : NegativesConfig :=
  { rules_enabled := ["RX"], k_min := 1, k_max := 1, ratio_target := mkRat 1 1,
    seed := 0 }

def c4p : Positive := { pair_id := "p1", source_text := "a", target_text := "b" }

def c4sp : Split := { train_ids := ["p1"], dev_ids := [], test_ids := [] }

def c5cfg : NegativesConfig :=
  { rules_enabled := ["R4"], k_min := 1, k_max := 3, ratio_target := mkRat 1 1,
    seed := 9 }

def c5p : Positive := { pair_id := "q7", source_text := "a", target_text := "b" }

def c5sp : Split := { train_ids := ["p1"], dev_ids := ["p2"], test_ids := ["p3"] }

def c5st : EngineState := { rng := ⟨123⟩, registry := [], samples := [] }

/-- R4 lexicons for the scan-order analysis: prefix `n`, suffix `ne`,
trigger possessive `mi`. -/
def c6cfg : R4Config :=
  { posesivos := ["mi"], prefixes := ["n"], pssd := ["ne"], severity := mkRat 9 10 }

def c7cfg0 : R8Config :=
  { determiners := ["el"], severity := mkRat 3 5, injection_rate := mkRat 0 1 }

def c7cfg1 : R8Config :=
  { determiners := ["el"], severity := mkRat 3 5, injection_rate := mkRat 1 1 }

def c8r4cfg : R4Config :=
  { posesivos := ["mi"], prefixes := ["no"], pssd := ["ne"], severity := mkRat 9 10 }

def c8cfg : NegativesConfig :=
  { rules_enabled := ["R4"], k_min := 1, k_max := 1, ratio_target := mkRat 1 1,
    seed := 0 }

/-- Three positives of which only the first triggers R4, so the run emits
one sample out of three positives. -/
def c8ps : List Positive :=
  [{ pair_id := "p1", source_text := "mi casa", target_text := "nokane wa" },
   { pair_id := "p2", source_text := "casa", target_text := "wale" },
   { pair_id := "p3", source_text := "casa", target_text := "wale" }]

def c8sp : Split := { train_ids := ["p1", "p2", "p3"], dev_ids := [], test_ids := [] }

def c8reg : Registry := [("R4", .r4 c8r4cfg)]

def c8out : RunResult :=
  (generate_negatives c8cfg c8ps c8sp c8reg).toOption.getD emptyRunResult

def c10r4cfg : R4Config :=
  { posesivos := ["mi"], prefixes := ["no"], pssd := ["ne"], severity := mkRat 9 10 }

/-- Two attempts per positive, cap 2: the deterministic R4 rule is drawn
twice for the same positive. -/
def c10cfg : NegativesConfig :=
  { rules_enabled := ["R4"], k_min := 2, k_max := 2, ratio_target := mkRat 2 1,
    seed := 7 }

def c10ps : List Positive :=
  [{ pair_id := "p1", source_text := "mi casa", target_text := "nokane wa" }]

def c10sp : Split := { train_ids := ["p1"], dev_ids := [], test_ids := [] }

def c10reg : Registry := [("R4", .r4 c10r4cfg)]

/-! ## Helper lemmas -/

theorem appendCapped_length_le (cap : Nat) (acc new : List NegativeSample)
    (h : acc.length ≤ cap) : (appendCapped cap acc new).length ≤ cap := by
  simp only [appendCapped, List.length_append, List.length_take]
  omega

theorem runAttempts_stop (cfg : NegativesConfig) (cap : Nat) (p : Positive)
    (lbl : String) (k : Nat) (st : EngineState)
    (h : cap ≤ st.samples.length) :
    runAttempts cfg cap p lbl k st = .ok st := by
  cases k with
  | zero => rfl
  | succ k => unfold runAttempts; rw [if_pos h]

theorem runPositives_stop (cfg : NegativesConfig) (cap : Nat) (sp : Split)
    (ps : List Positive) (st : EngineState)
    (h : cap ≤ st.samples.length) :
    runPositives cfg cap sp ps st = .ok st := by
  cases ps with
  | nil => rfl
  | cons p rest => unfold runPositives; rw [if_pos h]

theorem runAttempts_ok_le (cfg : NegativesConfig) (cap : Nat) (p : Positive)
    (lbl : String) :
    ∀ k st st', runAttempts cfg cap p lbl k st = .ok st' →
      st.samples.length ≤ cap → st'.samples.length ≤ cap := by
  intro k
  induction k with
  | zero =>
    intro st st' h hle
    cases h
    exact hle
  | succ k ih =>
    intro st st' h hle
    unfold runAttempts at h
    split at h
    · cases h; exact hle
    · split at h
      · cases h
      · split at h
        · cases h
        · exact ih _ _ h (appendCapped_length_le _ _ _ hle)

theorem stepPositive_ok_le (cfg : NegativesConfig) (cap : Nat) (sp : Split)
    (p : Positive) (st st' : EngineState)
    (h : stepPositive cfg cap sp p st = .ok st')
    (hle : st.samples.length ≤ cap) : st'.samples.length ≤ cap := by
  unfold stepPositive at h
  split at h
  · cases h; exact hle
  · exact runAttempts_ok_le cfg cap p _ _ _ _ h hle

theorem runPositives_ok_le (cfg : NegativesConfig) (cap : Nat) (sp : Split) :
    ∀ ps st st', runPositives cfg cap sp ps st = .ok st' →
      st.samples.length ≤ cap → st'.samples.length ≤ cap := by
  intro ps
  induction ps with
  | nil =>
    intro st st' h hle
    cases h
    exact hle
  | cons p rest ih =>
    intro st st' h hle
    unfold runPositives at h
    split at h
    · cases h; exact hle
    · split at h
      · cases h
      · rename_i st1 hrun
        exact ih _ _ h (stepPositive_ok_le cfg cap sp p _ _ hrun hle)

theorem firstSome_eq_none_iff (f : α → Option β) :
    ∀ l : List α, firstSome f l = none ↔ ∀ a ∈ l, f a = none := by
  intro l
  induction l with
  | nil => simp [firstSome]
  | cons a t ih =>
    unfold firstSome
    cases h : f a with
    | some b => simp [h]
    | none => simp [h, ih]

theorem firstSome_append_of_none (f : α → Option β) :
    ∀ (pre l : List α), (∀ a ∈ pre, f a = none) →
      firstSome f (pre ++ l) = firstSome f l := by
  intro pre
  induction pre with
  | nil => intro l _; rfl
  | cons a t ih =>
    intro l h
    have ha : f a = none := h a (List.mem_cons_self a t)
    simp only [List.cons_append, firstSome, ha]
    exact ih l fun x hx => h x (List.mem_cons_of_mem a hx)

theorem ite_none_right {c : Prop} [Decidable c] {x : Option α} :
    (if c then x else none) = none ↔ (c → x = none) := by
  by_cases h : c <;> simp [h]

theorem pyRandint_ge (r : Rng) (a b : Nat) : a ≤ (pyRandint r a b).1 :=
  Nat.le_add_right a _

theorem pyRandom_lt_one (r : Rng) : (pyRandom r).1 < 1 := by
  have hlt : (r.state * 1103515245 + 12345) % rngMod < rngMod :=
    Nat.mod_lt _ (by norm_num [rngMod])
  simp only [pyRandom, rngNext]
  rw [Rat.mkRat_eq_div, div_lt_one (by norm_num [rngMod])]
  exact_mod_cast hlt

theorem pyChoice_mem {α : Type} (r : Rng) (xs : List α) (h : xs ≠ []) :
    ∃ a ∈ xs, (pyChoice r xs).1 = some a := by
  have hlen : 0 < xs.length := List.length_pos.mpr h
  have hlt : (rngNext r).1 % xs.length < xs.length := Nat.mod_lt _ hlen
  refine ⟨xs.get ⟨(rngNext r).1 % xs.length, hlt⟩, List.get_mem _ _ _, ?_⟩
  simp only [pyChoice]
  exact List.get?_eq_get hlt

theorem export_rows (samples : List NegativeSample) :
    (export_negatives samples).stats.rows = samples.length := by
  cases samples with
  | nil => rfl
  | cons s t =>
    simp [export_negatives, dataFrameOfRecords, List.isEmpty]

theorem dfInsertKeys_asdict_nil (s : NegativeSample) :
    dfInsertKeys [] (asdict s) = negColumnsLit := by
  simp [dfInsertKeys, asdict, negColumnsLit]

theorem dfInsertKeys_asdict_full (s : NegativeSample) :
    dfInsertKeys negColumnsLit (asdict s) = negColumnsLit := by
  simp [dfInsertKeys, asdict, negColumnsLit]

theorem dataFrameOfRecords_columns (records : List (List (String × CellValue))) :
    (dataFrameOfRecords records).columns = dfColumns records := rfl

theorem dfColumns_cons (rec : List (String × CellValue))
    (recs : List (List (String × CellValue))) :
    dfColumns (rec :: recs) = List.foldl dfInsertKeys (dfInsertKeys [] rec) recs := rfl

theorem dfColumns_foldl_full :
    ∀ l : List NegativeSample,
      List.foldl dfInsertKeys negColumnsLit (l.map asdict) = negColumnsLit := by
  intro l
  induction l with
  | nil => rfl
  | cons s t ih =>
    simp only [List.map_cons, List.foldl_cons, dfInsertKeys_asdict_full]
    exact ih

/-- For a nonnegative ratio (the configured case), the engine's cap
`int(ratio * n)` is exactly `floor(ratio * n)`, the bound the spec
names. -/
theorem max_negatives_allowed_eq_floor (ratio : ℚ) (n : Nat) (h : 0 ≤ ratio) :
    max_negatives_allowed ratio n = (⌊ratio * (n : ℚ)⌋).toNat := by
  have hnum : 0 ≤ ratio.num := Rat.num_nonneg.mpr h
  have hval : ratio * (n : ℚ) =
      ((ratio.num * (n : ℤ) : ℤ) : ℚ) / ((ratio.den : ℕ) : ℚ) := by
    conv_lhs => rw [← Rat.num_div_den ratio]
    push_cast
    ring
  unfold max_negatives_allowed
  rw [hval, Rat.floor_intCast_div_natCast]
  congr 1
  exact Int.tdiv_eq_ediv (by positivity) (Int.ofNat_nonneg _)

/-! ## Claim theorems -/

/-- Claim C2: the number of emitted negative samples never exceeds
`floor(ratio_target * positive_count)`: the engine's cap
`max_negatives_allowed` equals that floor for every nonnegative ratio (last
conjunct), the final sample count never exceeds it, every accumulation
step preserves the bound, and once the cap is reached both the positive
loop and the attempt loop stop at once with no further samples
appended. -/
theorem ratio_bound :
    (∀ cfg positives sp reg out,
        generate_negatives cfg positives sp reg = .ok out →
        out.samples.length ≤ max_negatives_allowed cfg.ratio_target positives.length)
    ∧ (∀ cap (acc new : List NegativeSample), acc.length ≤ cap →
        (appendCapped cap acc new).length ≤ cap)
    ∧ (∀ cfg cap sp ps st, cap ≤ st.samples.length →
        runPositives cfg cap sp ps st = .ok st)
    ∧ (∀ cfg cap p lbl k st, cap ≤ st.samples.length →
        runAttempts cfg cap p lbl k st = .ok st)
    ∧ (∀ (ratio : ℚ) (n : Nat), 0 ≤ ratio →
        max_negatives_allowed ratio n = (⌊ratio * (n : ℚ)⌋).toNat) := by
  refine ⟨?_, appendCapped_length_le,
    fun cfg cap sp ps st h => runPositives_stop cfg cap sp ps st h,
    fun cfg cap p lbl k st h => runAttempts_stop cfg cap p lbl k st h,
    max_negatives_allowed_eq_floor⟩
  intro cfg positives sp reg out h
  simp only [generate_negatives] at h
  split at h
  · cases h
  · rename_i st hrun
    split at h
    · cases h
    · cases h
      exact runPositives_ok_le cfg _ sp positives _ st hrun (Nat.zero_le _)

/-- Witness for C2: a concrete one-positive run returns ok and its sample
count satisfies the cap bound. -/
theorem ratio_bound_witness :
    generate_negatives c2cfg c2ps c2sp c2reg = .ok c2out
    ∧ c2out.samples.length ≤ max_negatives_allowed c2cfg.ratio_target c2ps.length :=
  ⟨by decide, ratio_bound.1 c2cfg c2ps c2sp c2reg c2out (by decide)⟩

/-- Claim C5: a positive whose `pair_id` is absent from the split partition
is skipped entirely: its step leaves the engine state (RNG, registry,
accumulated samples) untouched, and the loop over the remaining positives
proceeds exactly as if the row were not there. -/
theorem unassigned_split_skip :
    ∀ cfg cap sp (p : Positive) rest st,
    build_split_index sp p.pair_id = none →
    stepPositive cfg cap sp p st = .ok st
    ∧ runPositives cfg cap sp (p :: rest) st = runPositives cfg cap sp rest st := by
  intro cfg cap sp p rest st h
  have hstep : stepPositive cfg cap sp p st = .ok st := by
    unfold stepPositive
    rw [h]
  refine ⟨hstep, ?_⟩
  by_cases hc : cap ≤ st.samples.length
  · rw [runPositives_stop cfg cap sp (p :: rest) st hc,
        runPositives_stop cfg cap sp rest st hc]
  · simp only [runPositives, if_neg hc, hstep]

/-- Witness for C5: a concrete unassigned positive is skipped without any
state change. -/
theorem unassigned_split_skip_witness :
    build_split_index c5sp c5p.pair_id = none
    ∧ runPositives c5cfg 5 c5sp [c5p] c5st = runPositives c5cfg 5 c5sp [] c5st :=
  ⟨by decide, (unassigned_split_skip c5cfg 5 c5sp c5p [] c5st (by decide)).2⟩

/-- Claim C9: exporting an empty sample sequence produces a zero-row table
that carries all nine declared columns, and the exporter's column schema is
the same nine names for every input, independent of the row count. -/
theorem export_schema_stability :
    (export_negatives []).df.records = []
    ∧ (export_negatives []).stats.rows = 0
    ∧ ∀ samples, (export_negatives samples).df.columns = negColumnsLit := by
  refine ⟨rfl, rfl, ?_⟩
  intro samples
  cases samples with
  | nil => rfl
  | cons s t =>
    have hdf : (export_negatives (s :: t)).df =
        dataFrameOfRecords ((s :: t).map asdict) := rfl
    have h1 := congrArg DataFrame.columns hdf
    rw [h1, dataFrameOfRecords_columns, List.map_cons, dfColumns_cons,
      dfInsertKeys_asdict_nil]
    exact dfColumns_foldl_full t

/-- Claim C1 (amended): a run is a function of exactly the configured seed,
positive order, rule configuration (the registry with each generator's own
constructor-seeded RNG state), `k_min`, `k_max` and `ratio_target` -- equal
inputs give identical outputs -- and the deterministic rules (R4, R6, R7)
carry no RNG state at all: their `generate` returns the object unchanged.
The rule-internal probabilistic decision of R8 is NOT drawn from the engine
stream (see the counterexample). -/
theorem rng_stream_determinism :
    (∀ cfg₁ cfg₂ ps₁ ps₂ sp₁ sp₂ reg₁ reg₂,
        cfg₁ = cfg₂ → ps₁ = ps₂ → sp₁ = sp₂ → reg₁ = reg₂ →
        generate_negatives cfg₁ ps₁ sp₁ reg₁ = generate_negatives cfg₂ ps₂ sp₂ reg₂)
    ∧ (∀ c pid src tgt sp, (Generator.generate (.r4 c) pid src tgt sp).2 = .r4 c)
    ∧ (∀ c pid src tgt sp, (Generator.generate (.r6 c) pid src tgt sp).2 = .r6 c)
    ∧ (∀ c pid src tgt sp, (Generator.generate (.r7 c) pid src tgt sp).2 = .r7 c) :=
  ⟨fun _ _ _ _ _ _ _ _ h1 h2 h3 h4 => by rw [h1, h2, h3, h4],
   fun _ _ _ _ _ => rfl, fun _ _ _ _ _ => rfl, fun _ _ _ _ _ => rfl⟩

/-- Witness for C1: the determinism conjunct applied at a concrete run. -/
theorem rng_stream_determinism_witness :
    c1cfg = c1cfg
    ∧ generate_negatives c1cfg c1ps c1sp c1reg = generate_negatives c1cfg c1ps c1sp c1reg :=
  ⟨rfl, rng_stream_determinism.1 c1cfg c1cfg c1ps c1ps c1sp c1sp c1reg c1reg
    rfl rfl rfl rfl⟩

/-- Counterexample for C1 as stated: the code's run differs from the run in
which the rule-internal probabilistic decision is drawn from the single
engine stream seeded from the configured seed (spec wording).  With one
positive, one R8 attempt and injection rate 1/2, the code consults R8's own
constructor-seeded stream (first draw 1250496027/2^31 > 1/2: reject, no
sample) while the single-stream rendering consults the engine stream's
third draw (654583775/2^31 <= 1/2: emit). -/
theorem single_stream_counterexample :
    (generate_negatives c1cfg c1ps c1sp c1reg).toOption.map
        (fun r => r.samples.length) = some 0
    ∧ (generate_negatives_single_stream c1cfg c1ps c1sp c1reg).toOption.map
        (fun r => r.samples.length) = some 1
    ∧ generate_negatives c1cfg c1ps c1sp c1reg ≠
        generate_negatives_single_stream c1cfg c1ps c1sp c1reg :=
  ⟨by decide, by decide, by decide⟩

/-- Claim C3 (code bug): R6 emits a sample whose `negative_text` equals
`target_text` -- the no-op-rejection invariant is violated.  With the Yine
determiner `satu` followed by the noun-length token `satu`, the swap is the
identity and no identity guard exists in R6 (unlike R7). -/
theorem r6_identity_emission :
    (r6_generate c3cfg "p1" "la casa" "satu satu" "train").map
        (fun s => (s.negative_text, s.target_text)) = [("satu satu", "satu satu")]
    ∧ (r6_generate c3cfg "p1" "la casa" "satu satu" "train").any
        (fun s => s.negative_text == s.target_text) = true := by decide

/-- Claim C10: the controller performs no per-pair deduplication: with a
deterministic always-applicable rule drawn twice for the same positive
(k_min = k_max = 2, cap 2), the output contains two identical samples for
the same (pair_id, rule_id). -/
theorem no_dedup_duplicates :
    (generate_negatives c10cfg c10ps c10sp c10reg).toOption.map
        (fun r => (r.samples.length,
                   r.samples.map (fun s => (s.pair_id, s.rule_id)),
                   decide (r.samples.get? 0 = r.samples.get? 1))) =
      some (2, [("p1", "R4"), ("p1", "R4")], true) := by decide

/-- Claim C8 (amended): for every completed run the manifest records
`positive_rows`, `negative_rows` equal to the number of accumulated
samples, `ratio_actual` equal to `negative_rows / positive_rows` ROUNDED to
four decimal places (Python `round(x, 4)`), and echoes the configured
`k_min`, `k_max`, `ratio_target` and rule list. -/
theorem manifest_fields :
    ∀ cfg positives sp reg out,
    generate_negatives cfg positives sp reg = .ok out →
    out.manifest.positive_rows = positives.length
    ∧ out.manifest.negative_rows = out.samples.length
    ∧ out.manifest.ratio_actual = round4Frac out.samples.length positives.length
    ∧ out.manifest.k_min = cfg.k_min
    ∧ out.manifest.k_max = cfg.k_max
    ∧ out.manifest.ratio_target = cfg.ratio_target
    ∧ out.manifest.rules = cfg.rules_enabled := by
  intro cfg positives sp reg out h
  simp only [generate_negatives] at h
  split at h
  · cases h
  · split at h
    · cases h
    · cases h
      refine ⟨rfl, export_rows _, ?_, rfl, rfl, rfl, rfl⟩
      rw [export_rows]

/-- Witness for C8: the three-positives-one-sample run returns ok and its
manifest's `ratio_actual` is the rounded ratio. -/
theorem manifest_fields_witness :
    generate_negatives c8cfg c8ps c8sp c8reg = .ok c8out
    ∧ c8out.manifest.ratio_actual = round4Frac c8out.samples.length c8ps.length :=
  ⟨by decide, (manifest_fields c8cfg c8ps c8sp c8reg c8out (by decide)).2.2.1⟩

/-- Counterexample for C8 as stated: in that same run the manifest's
`ratio_actual` is 3333/10000, which is NOT equal to
`negative_rows / positive_rows = 1/3`: the code stores
`round(rows / n_positive, 4)`, not the exact ratio. -/
theorem ratio_actual_rounding_counterexample :
    (generate_negatives c8cfg c8ps c8sp c8reg).toOption.map
        (fun r => (r.manifest.positive_rows, r.manifest.negative_rows,
                   r.manifest.ratio_actual)) = some (3, 1, mkRat 3333 10000)
    ∧ mkRat 3333 10000 ≠ mkRat 1 3
    ∧ (mkRat 1 3 : ℚ) = (1 : ℚ) / 3 :=
  ⟨by decide, by decide, by rw [Rat.mkRat_eq_div]; norm_num⟩

/-- Claim C4: when the controller draws a rule_id that is in the enabled
list but not in the registry, the run aborts with the lookup error
(`KeyError`), and no `RunResult` -- no negative-sample table, no stats, no
manifest -- is produced: the failure happens inside the sampling loop,
before `export_negatives` or the manifest write are reached.  With a
single enabled rule the draw is forced regardless of the RNG. -/
theorem registry_miss_aborts :
    ∀ cfg (p : Positive) rest sp (reg : Registry) r lbl,
    cfg.rules_enabled = [r] →
    List.lookup r reg = none →
    build_split_index sp p.pair_id = some lbl →
    1 ≤ cfg.k_min →
    1 ≤ max_negatives_allowed cfg.ratio_target (p :: rest).length →
    generate_negatives cfg (p :: rest) sp reg = .error (.ruleNotRegistered r) := by
  intro cfg p rest sp reg r lbl hrules hreg hsplit hk hcap
  have hchoice : ∀ rng : Rng, pyChoice rng cfg.rules_enabled =
      (some r, (rngNext rng).2) := by
    intro rng
    rw [hrules]
    simp [pyChoice, Nat.mod_one]
  have hatt : ∀ (st : EngineState) (m : Nat), st.registry = reg →
      ¬ (max_negatives_allowed cfg.ratio_target (p :: rest).length ≤
          st.samples.length) →
      runAttempts cfg (max_negatives_allowed cfg.ratio_target (p :: rest).length)
        p lbl (m + 1) st = .error (.ruleNotRegistered r) := by
    intro st m hr hlen
    unfold runAttempts
    rw [if_neg hlen, hchoice st.rng]
    simp only [hr, hreg]
  have hstep : ∀ st : EngineState, st.registry = reg → st.samples = [] →
      stepPositive cfg (max_negatives_allowed cfg.ratio_target (p :: rest).length)
        sp p st = .error (.ruleNotRegistered r) := by
    intro st hr hs
    unfold stepPositive
    rw [hsplit]
    obtain ⟨m, hm⟩ : ∃ m, (pyRandint st.rng cfg.k_min cfg.k_max).1 = m + 1 :=
      ⟨(pyRandint st.rng cfg.k_min cfg.k_max).1 - 1, by
        have := pyRandint_ge st.rng cfg.k_min cfg.k_max
        omega⟩
    rw [hm]
    refine hatt _ m hr ?_
    show ¬ (_ ≤ st.samples.length)
    rw [hs]
    simp only [List.length_nil]
    omega
  have hrun : runPositives cfg
      (max_negatives_allowed cfg.ratio_target (p :: rest).length) sp (p :: rest)
      { rng := Rng.ofSeed cfg.seed, registry := reg, samples := [] } =
      .error (.ruleNotRegistered r) := by
    unfold runPositives
    split
    · rename_i hle
      simp only [List.length_nil] at hle
      omega
    · rw [hstep _ rfl rfl]
  unfold generate_negatives
  rw [hrun]

/-- Witness for C4: a concrete run whose only enabled rule is not
registered aborts with the lookup error. -/
theorem registry_miss_aborts_witness :
    List.lookup "RX" ([] : Registry) = none
    ∧ build_split_index c4sp c4p.pair_id = some "train"
    ∧ generate_negatives c4cfg [c4p] c4sp [] = .error (.ruleNotRegistered "RX") :=
  ⟨rfl, by decide,
   registry_miss_aborts c4cfg c4p [] c4sp [] "RX" "train" rfl rfl (by decide)
     (by decide) (by decide)⟩

theorem firstSome_eq_some (f : α → Option β) :
    ∀ (l : List α) (b : β), firstSome f l = some b → ∃ a ∈ l, f a = some b := by
  intro l
  induction l with
  | nil => intro b h; cases h
  | cons a t ih =>
    intro b h
    unfold firstSome at h
    cases hfa : f a with
    | some b' =>
      rw [hfa] at h
      simp only [] at h
      exact ⟨a, List.mem_cons_self a t, by rw [hfa, h]⟩
    | none =>
      rw [hfa] at h
      simp only [] at h
      obtain ⟨a', ha', hfa'⟩ := ih b h
      exact ⟨a', List.mem_cons_of_mem a ha', hfa'⟩

theorem r4_token_site_none_iff (cfg : R4Config) (tok : List Char) :
    r4_token_site cfg tok = none ↔
      ¬ ∃ P ∈ cfg.prefixes, P.data.isPrefixOf tok = true ∧
        ∃ S ∈ cfg.pssd, S.data.isSuffixOf tok = true ∧
          3 ≤ (pyNegSlice tok S.data.length).length := by
  unfold r4_token_site
  rw [firstSome_eq_none_iff]
  constructor
  · rintro h ⟨P, hP, hpre, S, hS, hsuf, hlen⟩
    have hinner := h P hP
    rw [if_pos hpre, firstSome_eq_none_iff] at hinner
    have hres := hinner S hS
    rw [if_pos hsuf, if_pos hlen] at hres
    cases hres
  · intro h P hP
    by_cases hpre : P.data.isPrefixOf tok
    · rw [if_pos hpre, firstSome_eq_none_iff]
      intro S hS
      by_cases hsuf : S.data.isSuffixOf tok
      · rw [if_pos hsuf]
        by_cases hlen : 3 ≤ (pyNegSlice tok S.data.length).length
        · exact absurd ⟨P, hP, hpre, S, hS, hsuf, hlen⟩ h
        · rw [if_neg hlen]
      · rw [if_neg hsuf]
    · rw [if_neg hpre]

theorem r4_token_site_some (cfg : R4Config) (tok root prefx sufx : List Char)
    (h : r4_token_site cfg tok = some (root, prefx, sufx)) :
    prefx.isPrefixOf tok = true ∧ sufx.isSuffixOf tok = true ∧
    root = pyNegSlice tok sufx.length ∧ 3 ≤ root.length ∧
    (∃ P ∈ cfg.prefixes, P.data = prefx) ∧ ∃ S ∈ cfg.pssd, S.data = sufx := by
  unfold r4_token_site at h
  obtain ⟨P, hP, hPa⟩ := firstSome_eq_some _ _ _ h
  by_cases hpre : P.data.isPrefixOf tok
  · rw [if_pos hpre] at hPa
    obtain ⟨S, hS, hSa⟩ := firstSome_eq_some _ _ _ hPa
    by_cases hsuf : S.data.isSuffixOf tok
    · rw [if_pos hsuf] at hSa
      by_cases hlen : 3 ≤ (pyNegSlice tok S.data.length).length
      · rw [if_pos hlen] at hSa
        simp only [Option.some.injEq, Prod.mk.injEq] at hSa
        obtain ⟨h1, h2, h3⟩ := hSa
        subst h1
        subst h2
        subst h3
        exact ⟨hpre, hsuf, rfl, hlen, ⟨P, hP, rfl⟩, ⟨S, hS, rfl⟩⟩
      · rw [if_neg hlen] at hSa
        cases hSa
    · rw [if_neg hsuf] at hSa
      cases hSa
  · rw [if_neg hpre] at hPa
    cases hPa

/-- Claim C6 (amended): when the source contains a triggering Spanish
possessive, R4 scans the target's tokens left to right; each token with a
registered prefix, a registered PSSD suffix and a suffix-stripped form of
length at least 3 is a qualifying site (shorter stripped forms are skipped
and scanning continues); if no token qualifies the rule returns nothing,
and otherwise it emits exactly one sample whose negative text replaces the
first SUBSTRING occurrence of the first qualifying token's text (which may
lie inside an earlier, longer word) by the suffix-stripped form. -/
theorem r4_scan_behaviour :
    ∀ (cfg : R4Config) (pid src tgt sp : String),
    r4_triggered cfg src = true →
    ((∀ tok ∈ wtokens tgt, r4_token_site cfg tok = none) →
       r4_generate cfg pid src tgt sp = [])
    ∧ (∀ pre tok post root prefx sufx,
        wtokens tgt = pre ++ tok :: post →
        (∀ t ∈ pre, r4_token_site cfg t = none) →
        r4_token_site cfg tok = some (root, prefx, sufx) →
        r4_generate cfg pid src tgt sp =
          [mkR4Sample cfg pid src tgt sp tok root prefx sufx]
        ∧ (mkR4Sample cfg pid src tgt sp tok root prefx sufx).negative_text =
            ⟨replaceFirst tok root tgt.data⟩
        ∧ prefx.isPrefixOf tok = true ∧ sufx.isSuffixOf tok = true
        ∧ root = pyNegSlice tok sufx.length ∧ 3 ≤ root.length
        ∧ (∃ P ∈ cfg.prefixes, P.data = prefx) ∧ (∃ S ∈ cfg.pssd, S.data = sufx))
    ∧ (∀ tok, r4_token_site cfg tok = none ↔
        ¬ ∃ P ∈ cfg.prefixes, P.data.isPrefixOf tok = true ∧
          ∃ S ∈ cfg.pssd, S.data.isSuffixOf tok = true ∧
            3 ≤ (pyNegSlice tok S.data.length).length) := by
  intro cfg pid src tgt sp htrig
  refine ⟨?_, ?_, fun tok => r4_token_site_none_iff cfg tok⟩
  · intro hall
    unfold r4_generate
    rw [if_pos htrig]
    have hnone : firstSome
        (fun tok => (r4_token_site cfg tok).map (fun s => (tok, s)))
        (wtokens tgt) = none := by
      rw [firstSome_eq_none_iff]
      intro tok ht
      rw [hall tok ht]
      rfl
    rw [hnone]
  · intro pre tok post root prefx sufx htoks hprenone hsite
    have hfound : firstSome
        (fun t => (r4_token_site cfg t).map (fun s => (t, s)))
        (wtokens tgt) = some (tok, (root, prefx, sufx)) := by
      rw [htoks, firstSome_append_of_none _ pre _
        (fun t ht => by rw [hprenone t ht]; rfl)]
      unfold firstSome
      rw [hsite]
      rfl
    obtain ⟨hp, hs, hroot, hlen, hP, hS⟩ := r4_token_site_some cfg tok root prefx sufx hsite
    refine ⟨?_, rfl, hp, hs, hroot, hlen, hP, hS⟩
    unfold r4_generate
    rw [if_pos htrig, hfound]

/-- Witness for C6: applying the scan characterization at a concrete
configuration and target whose first token qualifies. -/
theorem r4_scan_behaviour_witness :
    r4_triggered c6cfg "mi x" = true
    ∧ r4_token_site c6cfg "nokane".data =
        some ("noka".data, "n".data, "ne".data)
    ∧ r4_generate c6cfg "p1" "mi x" "nokane wa" "train" =
        [mkR4Sample c6cfg "p1" "mi x" "nokane wa" "train"
          "nokane".data "noka".data "n".data "ne".data] :=
  ⟨by decide, by decide,
   ((r4_scan_behaviour c6cfg "p1" "mi x" "nokane wa" "train" (by decide)).2.1
     [] "nokane".data ["wa".data] "noka".data "n".data "ne".data
     (by decide) (by intro t ht; cases ht) (by decide)).1⟩

/-- Counterexample for C6 as stated: at a concrete input the emitted
negative text is NOT the claim's "replace the first qualifying token
occurrence".  The first (and only) qualifying token is `nokane`, but
`str.replace` rewrites its first substring occurrence, which sits inside
the earlier non-qualifying word `anokane`: the code produces
"anoka nokane", while replacing the first qualifying token occurrence
produces "anokane noka". -/
theorem r4_replace_site_counterexample :
    (r4_generate c6cfg "p1" "mi x" "anokane nokane" "train").map
        (fun s => s.negative_text) = ["anoka nokane"]
    ∧ String.mk (replaceFirstWordToken "nokane".data "noka".data false
        "anokane nokane".data) = "anokane noka"
    ∧ ("anoka nokane" : String) ≠ "anokane noka" :=
  ⟨by decide, by decide, by decide⟩

/-- Claim C7 (amended): with `injection_rate = 0.0` the rule emits nothing
whenever its RNG draw is nonzero (a draw of exactly 0.0 slips past the
strict `>` comparison and emits); with `injection_rate = 1.0` and no
pre-existing Spanish determiner in the target, it always emits exactly one
sample whose negative text is the chosen determiner, a space and the
target text, stripped of surrounding whitespace. -/
theorem r8_injection_rate_behaviour :
    ∀ (cfg : R8Config) (rng : Rng) (pid src tgt sp : String),
    (cfg.injection_rate = 0 → 0 < (pyRandom rng).1 →
       (r8_generate cfg rng pid src tgt sp).1 = [])
    ∧ (cfg.injection_rate = 1 →
       contains_spanish_determiner cfg.determiners tgt = false →
       cfg.determiners ≠ [] →
       ∃ d ∈ cfg.determiners,
         (r8_generate cfg rng pid src tgt sp).1 =
           [mkR8Sample cfg d pid src tgt sp]) := by
  intro cfg rng pid src tgt sp
  constructor
  · intro h0 hq
    unfold r8_generate
    rw [h0, if_pos hq]
  · intro h1 hdet hne
    unfold r8_generate
    have hq1 : ¬ (cfg.injection_rate < (pyRandom rng).1) := by
      rw [h1]
      exact not_lt.mpr (le_of_lt (pyRandom_lt_one rng))
    have hd' : ¬ (contains_spanish_determiner cfg.determiners tgt = true) := by
      rw [hdet]
      exact Bool.false_ne_true
    rw [if_neg hq1, if_neg hd']
    obtain ⟨d, hdmem, hchoice⟩ := pyChoice_mem (pyRandom rng).2 cfg.determiners hne
    refine ⟨d, hdmem, ?_⟩
    rcases hpair : pyChoice (pyRandom rng).2 cfg.determiners with ⟨o, rng2⟩
    rw [hpair] at hchoice
    simp only [] at hchoice
    rw [hchoice]

/-- Witness for C7: both conjuncts applied at concrete configurations, a
nonzero first draw for the rate-0 case and a concrete state for the
rate-1 case. -/
theorem r8_injection_rate_behaviour_witness :
    (0 : ℚ) < (pyRandom ⟨0⟩).1
    ∧ (r8_generate c7cfg0 ⟨0⟩ "p1" "x" "wale" "train").1 = []
    ∧ contains_spanish_determiner c7cfg1.determiners "wale" = false
    ∧ (r8_generate c7cfg1 ⟨5⟩ "p1" "x" "wale" "train").1 =
        [mkR8Sample c7cfg1 "el" "p1" "x" "wale" "train"] := by
  have hdraw : (pyRandom (⟨0⟩ : Rng)).1 = mkRat 12345 2147483648 := by decide
  have hpos : (0 : ℚ) < (pyRandom (⟨0⟩ : Rng)).1 := by
    rw [hdraw, Rat.mkRat_eq_div]
    norm_num
  refine ⟨hpos, ?_, by decide, ?_⟩
  · exact (r8_injection_rate_behaviour c7cfg0 ⟨0⟩ "p1" "x" "wale" "train").1
      (by show mkRat 0 1 = 0; rw [Rat.mkRat_eq_div]; norm_num) hpos
  · obtain ⟨d, hd, he⟩ :=
      (r8_injection_rate_behaviour c7cfg1 ⟨5⟩ "p1" "x" "wale" "train").2
        (by show mkRat 1 1 = 1; rw [Rat.mkRat_eq_div]; norm_num)
        (by decide) (by decide)
    have hd' : d = "el" := by
      simpa [c7cfg1] using hd
    rw [hd'] at he
    exact he

/-- Counterexample for C7 as stated: with `injection_rate = 0.0` there IS
an RNG state (one whose next draw is exactly 0.0) at which the rule emits
a sample, because the code rejects only when `random() > 0.0` strictly;
and with `injection_rate = 1.0` and a target with trailing whitespace the
emitted negative text is not the determiner prepended to the target text,
because of the final `strip()`. -/
theorem r8_boundary_counterexample :
    c7cfg0.injection_rate = 0
    ∧ (pyRandom ⟨2088216195⟩).1 = 0
    ∧ (r8_generate c7cfg0 ⟨2088216195⟩ "p1" "x" "foo" "train").1.length = 1
    ∧ c7cfg1.injection_rate = 1
    ∧ contains_spanish_determiner c7cfg1.determiners "foo " = false
    ∧ (r8_generate c7cfg1 ⟨0⟩ "p1" "x" "foo " "train").1.map
        (fun s => s.negative_text) = ["el foo"]
    ∧ ("el foo" : String) ≠ "el" ++ " " ++ "foo " := by
  refine ⟨by show mkRat 0 1 = 0; rw [Rat.mkRat_eq_div]; norm_num, ?_,
    by decide, by show mkRat 1 1 = 1; rw [Rat.mkRat_eq_div]; norm_num,
    by decide, by decide, by decide⟩
  have : (pyRandom (⟨2088216195⟩ : Rng)).1 = mkRat 0 2147483648 := by decide
  rw [this, Rat.mkRat_eq_div]
  norm_num

